import Mathlib

/-!
Verification of the go-dbmigrate driver core against its specification.

The Go source is shallowly embedded: pure helpers become Lean functions,
stateful driver operations become explicit state-passing functions over a
small world model, and backend (database / filesystem / reflection) behaviour
that the source delegates to external libraries is supplied through explicit
oracle records, so that every branch of the source is represented.

Sections follow the source files:
  driver/util.go          - GenerateAdvisoryLockId (CRC32-based lock ids)
  driver/registry.go      - RegisterDriver / GetDriverGenerator / Drivers
  driver/driver.go        - New / verifyFilenameExtension
  postgres driver         - Lock / Unlock / Version / Migrate
  driver/generic          - Lock / Unlock / Version / Migrate / Validate / Invoke
-/

/-! ## Go-level error values

Errors in the source are ordinary Go values sent over channels or returned.
Identity of sentinel errors (driver.ErrLocked) and of the structured
gomethods errors matters to the claims, so errors are embedded as an
inductive; formatted errors (fmt.Errorf / errors.New) carry their text. -/

inductive GoError where
  | str (msg : String)
  | errLocked
  | unregisteredMethodsReceiver (driverName : String)
  | missingMethod (name : String)
  | methodNotExported (name : String)
  | wrongMethodSignature (name : String)
  | methodInvocationFailed (name : String) (err : GoError)
  deriving DecidableEq, Repr

/-- The text of an error, as used by a %v format verb.  The texts for
`str` and `unregisteredMethodsReceiver` come from the source; the gomethods
error texts are not under src/ and are never needed by a claim, so they are
rendered from their structure. -/
def GoError.message : GoError → String
  | .str s => s
  | .errLocked => "can\x27t acquire lock"
  | .unregisteredMethodsReceiver d => "Unregistered methods receiver for driver: " ++ d
  | .missingMethod n => "MissingMethodError: " ++ n
  | .methodNotExported n => "MethodNotExportedError: " ++ n
  | .wrongMethodSignature n => "WrongMethodSignatureError: " ++ n
  | .methodInvocationFailed n e => "MethodInvocationFailedError: " ++ n ++ ": " ++ e.message

/-! ## driver/util.go : GenerateAdvisoryLockId

`crc32.ChecksumIEEE` (Go standard library) is the IEEE CRC-32: reflected
polynomial 0xEDB88320, initial value 0xFFFFFFFF, final xor 0xFFFFFFFF.
`[]byte(s)` is the UTF-8 encoding of the string. Both are embedded here. -/

def crc32Poly : Nat := 0xEDB88320

def crc32Round (r : Nat) : Nat :=
  if r % 2 = 1 then (r >>> 1) ^^^ crc32Poly else r >>> 1

/-- One byte step of the reflected IEEE CRC-32. -/
def crc32Update (crc b : Nat) : Nat :=
  (crc32Round^[8] ((crc ^^^ b) % 256)) ^^^ (crc >>> 8)

/-- Go crc32.ChecksumIEEE over a byte sequence. -/
def crc32IEEE (bytes : List Nat) : Nat :=
  (bytes.foldl crc32Update 0xFFFFFFFF) ^^^ 0xFFFFFFFF

/-- UTF-8 encoding of one character (Go []byte(string) semantics). -/
def utf8Char (c : Char) : List Nat :=
  let n := c.toNat
  if n < 0x80 then [n]
  else if n < 0x800 then
    [0xC0 ||| (n >>> 6), 0x80 ||| (n &&& 0x3F)]
  else if n < 0x10000 then
    [0xE0 ||| (n >>> 12), 0x80 ||| ((n >>> 6) &&& 0x3F), 0x80 ||| (n &&& 0x3F)]
  else
    [0xF0 ||| (n >>> 18), 0x80 ||| ((n >>> 12) &&& 0x3F),
     0x80 ||| ((n >>> 6) &&& 0x3F), 0x80 ||| (n &&& 0x3F)]

/-- UTF-8 bytes of a string, i.e. Go []byte(s). -/
def stringUtf8 (s : String) : List Nat :=
  s.data.foldr (fun c acc => utf8Char c ++ acc) []

/-- Go strings.Join. -/
def stringsJoin (sep : String) : List String → String
  | [] => ""
  | [a] => a
  | a :: rest => a ++ sep ++ stringsJoin sep rest

def advisoryLockIDSalt : Nat := 1486364155

/-- driver/util.go GenerateAdvisoryLockId: joins additionalNames and the
database name with a NUL byte, takes the IEEE CRC-32 of the UTF-8 bytes,
multiplies by the salt in uint32 arithmetic and prints it in decimal.
The source never returns a non-nil error. -/
def GenerateAdvisoryLockId (databaseName : String) (additionalNames : List String) :
    String × Option GoError :=
  let joined :=
    if additionalNames.length > 0 then
      stringsJoin "\x00" (additionalNames ++ [databaseName])
    else databaseName
  let sum := crc32IEEE (stringUtf8 joined)
  let sum := (sum * advisoryLockIDSalt) % 2 ^ 32
  (toString sum, none)

/-! ## driver/driver.go and driver/registry.go

A driver instance is embedded by the behaviour New needs from it: its
filename extension and the result its Initialize would report.  Go panics
(RegisterDriver on a duplicate, verifyFilenameExtension, a nil generator
dereference) are modelled as the error of an `Except String` computation,
ordinary returned errors stay `GoError` values inside the `ok` branch. -/

structure DriverImpl where
  filenameExtension : String
  initResult : Option GoError
  deriving DecidableEq, Repr

structure DriverGenerator where
  fnGenerator : Option (Unit → DriverImpl)
  fnInitOptions : List (DriverImpl → DriverImpl)

def NewDriverGenerator (fn : Unit → DriverImpl) : DriverGenerator :=
  { fnGenerator := some fn, fnInitOptions := [] }

def DriverGenerator.RegisterInitFunction (dg : DriverGenerator)
    (fnInit : DriverImpl → DriverImpl) : DriverGenerator :=
  { dg with fnInitOptions := dg.fnInitOptions ++ [fnInit] }

/-- driver.go Generate: calls the generator and applies the init options.
Calling a nil generator function would be a Go runtime panic. -/
def DriverGenerator.Generate (dg : DriverGenerator) : Except String DriverImpl :=
  match dg.fnGenerator with
  | none => .error "invalid memory address or nil pointer dereference"
  | some fn => .ok (dg.fnInitOptions.foldl (fun d opt => opt d) (fn ()))

/-- The registry map, embedded as an association list keyed by scheme name
(the Go map cannot hold duplicate keys; RegisterDriver preserves that). -/
def Registry : Type := List (String × DriverGenerator)

/-- registry.go RegisterDriver: panics on a nil generator and on a duplicate
scheme name, otherwise adds the mapping. -/
def RegisterDriver (rg : Registry) (name : String) (driver : DriverGenerator) :
    Except String Registry :=
  if driver.fnGenerator.isNone then
    .error "driver: Register driver is nil"
  else
    match List.lookup name rg with
    | some _ => .error ("sql: Register called twice for driver " ++ name)
    | none => .ok ((name, driver) :: rg)

/-- registry.go GetDriverGenerator: plain map lookup, never panics. -/
def GetDriverGenerator (rg : Registry) (name : String) : Option DriverGenerator :=
  List.lookup name rg

/-- registry.go Drivers: collects the registered names and sorts them. -/
def Drivers (rg : Registry) : List String :=
  List.mergeSort (rg.map Prod.fst)

/-- driver.go verifyFilenameExtension: panics when the driver reports an
empty extension or one that starts with a dot. -/
def verifyFilenameExtension (driverName : String) (d : DriverImpl) :
    Except String Unit :=
  let f := d.filenameExtension
  if f = "" then
    .error (driverName ++ ".FilenameExtension() returns empty string.")
  else if f.take 1 = "." then
    .error (driverName ++ ".FilenameExtension() returned string must not start with a dot.")
  else .ok ()

/-- The part of a parsed connection URL New consumes: its scheme.
neturl.Parse itself is an external collaborator; its outcome is an input. -/
structure ParsedURL where
  scheme : String
  deriving DecidableEq, Repr

/-- driver.go New: parse the URL, look the scheme up, generate the driver,
verify its extension (panic on violation) and run Initialize. -/
def New (rg : Registry) (parsed : Except GoError ParsedURL) :
    Except String (Except GoError DriverImpl) :=
  match parsed with
  | .error err => .ok (.error err)
  | .ok u =>
    match GetDriverGenerator rg u.scheme with
    | none => .ok (.error (.str ("Driver \x27" ++ u.scheme ++ "\x27 not found.")))
    | some gen => do
      let d ← gen.Generate
      let _ ← verifyFilenameExtension u.scheme d
      match d.initResult with
      | some e => pure (.error e)
      | none => pure (.ok d)

/-! ## Backend world and queries

The durable state a driver's backend holds: the rows of its version table
and the committed effects of migration content.  SQL execution is delegated
to the backend library; whether a given command errors is an oracle input,
and the semantics of the fixed queries the source issues is embedded here. -/

structure DbWorld where
  versions : List Nat
  effects : List String
  deriving DecidableEq, Repr

/-- Backend semantics of SELECT version FROM ... ORDER BY version DESC
LIMIT 1: the greatest row, or no row (sql.ErrNoRows) on an empty table. -/
def queryMaxVersionRow (versions : List Nat) : Option Nat :=
  versions.max?

/-! ## Advisory lock: postgres Lock/Unlock (src/unnamed/part_000, 70-106)
and generic Lock/Unlock (generic.go, 131-167).

The driver state the lock code touches is its isLocked flag.  The result
records the backend commands issued (query text with its argument), the new
flag, and the returned error.  Whether pg_advisory_lock/unlock itself fails
is the oracle argument. -/

def Postgres.Lock (execErr : Option GoError) (isLocked : Bool) :
    List (String × String) × Bool × Option GoError :=
  if isLocked then ([], isLocked, some .errLocked)
  else
    match GenerateAdvisoryLockId "xraydb" ["migrate-postgres"] with
    | (_, some e) => ([], isLocked, some e)
    | (aid, none) =>
      match execErr with
      | some e =>
        ([("SELECT pg_advisory_lock($1)", aid)], isLocked,
         some (.str ("Postgres try lock failed: " ++ e.message)))
      | none => ([("SELECT pg_advisory_lock($1)", aid)], true, none)

def Postgres.Unlock (execErr : Option GoError) (isLocked : Bool) :
    List (String × String) × Bool × Option GoError :=
  if !isLocked then ([], isLocked, none)
  else
    match GenerateAdvisoryLockId "xraydb" ["migrate-postgres"] with
    | (_, some e) => ([], isLocked, some e)
    | (aid, none) =>
      match execErr with
      | some e =>
        ([("SELECT pg_advisory_unlock($1)", aid)], isLocked,
         some (.str ("Postgres try unlock failed: " ++ e.message)))
      | none => ([("SELECT pg_advisory_unlock($1)", aid)], false, none)

def Generic.Lock (execErr : Option GoError) (isLocked : Bool) :
    List (String × String) × Bool × Option GoError :=
  if isLocked then ([], isLocked, some .errLocked)
  else
    match GenerateAdvisoryLockId "xraydb" ["migrate-generic"] with
    | (_, some e) => ([], isLocked, some e)
    | (aid, none) =>
      match execErr with
      | some e =>
        ([("SELECT pg_advisory_lock($1)", aid)], isLocked,
         some (.str ("Generic try lock failed: " ++ e.message)))
      | none => ([("SELECT pg_advisory_lock($1)", aid)], true, none)

def Generic.Unlock (execErr : Option GoError) (isLocked : Bool) :
    List (String × String) × Bool × Option GoError :=
  if !isLocked then ([], isLocked, none)
  else
    match GenerateAdvisoryLockId "xraydb" ["migrate-generic"] with
    | (_, some e) => ([], isLocked, some e)
    | (aid, none) =>
      match execErr with
      | some e =>
        ([("SELECT pg_advisory_unlock($1)", aid)], isLocked,
         some (.str ("Generic try unlock failed: " ++ e.message)))
      | none => ([("SELECT pg_advisory_unlock($1)", aid)], false, none)

/-! ## Version (postgres 193-208, generic 194-209)

ensureConnectionNotClosed either succeeds (possibly after the one transparent
reopen for the "sql: database is closed" condition, which does not touch the
version table) or reports an error; that outcome and a backend failure of the
SELECT are the oracle inputs. -/

structure VersionOracle where
  ensureConnErr : Option GoError
  queryErr : Option GoError

def Postgres.Version (o : VersionOracle) (w : DbWorld) : Nat × Option GoError :=
  match o.ensureConnErr with
  | some e => (0, some (.str ("failed to ensure db connection is open: " ++ e.message)))
  | none =>
    match o.queryErr with
    | some e => (0, some e)
    | none =>
      match queryMaxVersionRow w.versions with
      | none => (0, none)
      | some v => (v, none)

def Generic.Version (o : VersionOracle) (w : DbWorld) : Nat × Option GoError :=
  match o.ensureConnErr with
  | some e => (0, some (.str ("failed to ensure db connection is open: " ++ e.message)))
  | none =>
    match o.queryErr with
    | some e => (0, some e)
    | none =>
      match queryMaxVersionRow w.versions with
      | none => (0, none)
      | some v => (v, none)

/-! ## Named-method invocation: reflection model (generic.go 238-277)

A methods receiver is embedded as a table of its methods.  Go reflection on
the receiver's concrete type lists only exported methods (those whose
PkgPath is empty), so MethodByName finds a method only when it is exported;
the PkgPath guard in Validate mirrors the source but can never fire, exactly
as in Go.  A method records its reflected shape and, since invoking it runs
arbitrary code, the backend effects it commits and the error it returns. -/

structure ReflectMethod where
  pkgPath : String
  numIn : Nat
  numOut : Nat
  outIsError : Bool
  callResult : Option GoError
  effect : List String
  deriving DecidableEq, Repr

def MethodsReceiver : Type := List (String × ReflectMethod)

/-- reflect MethodByName on the receiver: exported methods only. -/
def MethodByName (recv : MethodsReceiver) (name : String) : Option ReflectMethod :=
  (List.lookup name recv).filter (fun m => m.pkgPath = "")

/-- Equality with reflect.TypeOf(func() error \x7b ... \x7d). -/
def isFuncErrorType (m : ReflectMethod) : Bool :=
  m.numIn = 0 && m.numOut = 1 && m.outIsError

/-- generic.go Validate. -/
def Generic.Validate (recv : MethodsReceiver) (methodName : String) : Option GoError :=
  match MethodByName recv methodName with
  | none => some (.missingMethod methodName)
  | some m =>
    if m.pkgPath ≠ "" then some (.methodNotExported methodName)
    else if !isFuncErrorType m then some (.wrongMethodSignature methodName)
    else none

/-- generic.go Invoke: resolves the method, Calls it with no arguments
(a reflect panic when the method expects arguments - the `error` branch),
then checks the returned values.  Running the method commits its effects. -/
def Generic.Invoke (recv : MethodsReceiver) (methodName : String) (w : DbWorld) :
    Except String (DbWorld × Option GoError) :=
  match MethodByName recv methodName with
  | none => .ok (w, some (.missingMethod methodName))
  | some m =>
    if m.numIn ≠ 0 then .error "reflect: Call with too few input arguments"
    else
      let w2 := { w with effects := w.effects ++ m.effect }
      if m.numOut ≠ 1 then .ok (w2, some (.wrongMethodSignature methodName))
      else
        match m.callResult with
        | none => .ok (w2, none)
        | some e =>
          if m.outIsError then .ok (w2, some (.methodInvocationFailed methodName e))
          else .ok (w2, some (.wrongMethodSignature methodName))

/-! ## generic.go Initialize (59-101) and ensureVersionTableExists (169-188) -/

structure TableOracle where
  lockExecErr : Option GoError
  createTableErr : Option GoError
  unlockExecErr : Option GoError

/-- generic.go ensureVersionTableExists: Lock, CREATE TABLE IF NOT EXISTS,
deferred Unlock combining both errors. -/
def Generic.ensureVersionTableExists (o : TableOracle) (isLocked : Bool) :
    Bool × Option GoError :=
  match Generic.Lock o.lockExecErr isLocked with
  | (_, isL2, some e) => (isL2, some e)
  | (_, isL2, none) =>
    let execErr := o.createTableErr
    match Generic.Unlock o.unlockExecErr isL2 with
    | (_, isL3, none) => (isL3, execErr)
    | (_, isL3, some e2) =>
      match execErr with
      | none => (isL3, some e2)
      | some e1 => (isL3, some (.str ("Error1: " ++ e1.message ++ ", Error2: " ++ e2.message)))

/-- Query().Get: first value for the key, or the empty string. -/
def goQueryGet (query : List (String × String)) (key : String) : String :=
  (List.lookup key query).getD ""

/-- Outcome of neturl.Parse on the Initialize url: the parse error text, or
the url's query parameters (the only part of the parsed value the source
branches on besides re-encoding it for sql.Open). -/
inductive ParsedInitURL where
  | failed (errMsg : String)
  | parsed (query : List (String × String))

structure GenInitOracle where
  openErr : Option GoError
  pingErr : Option GoError
  table : TableOracle

/-- generic.go Initialize: rejects a driver without a registered methods
receiver before anything else, then parses the url, requires and strips the
migrations_db_type parameter, opens and pings the connection and bootstraps
the version table under the advisory lock. -/
def Generic.InitializeDriver (recv : Option MethodsReceiver) (urlRaw : String)
    (url : ParsedInitURL) (o : GenInitOracle) (isLocked : Bool) :
    Bool × Option GoError :=
  match recv with
  | none => (isLocked, some (.unregisteredMethodsReceiver "generic"))
  | some _ =>
    match url with
    | .failed msg =>
      (isLocked, some (.str ("Failed to parse initialization url " ++ urlRaw ++ ": " ++ msg)))
    | .parsed query =>
      let migrationsDb := goQueryGet query "migrations_db_type"
      if migrationsDb = "" then
        (isLocked, some (.str "db_migrations_database query parameter was not provider"))
      else
        let schema := if migrationsDb = "postgres" then "postgres" else ""
        if schema = "" then
          (isLocked, some (.str ("Could not deduce db migration database schema from url " ++ urlRaw)))
        else
          match o.openErr with
          | some e => (isLocked, some e)
          | none =>
            match o.pingErr with
            | some e => (isLocked, some e)
            | none => Generic.ensureVersionTableExists o.table isLocked

/-! ## Migration files and the pipe protocol

A pipe carries interface\x7b\x7d values: the echoed file and error values.
A driver call's channel behaviour is its event trace: the sends it performs
in order, and the close that `defer close(pipe)` runs when it returns. -/

inductive Direction where
  | up
  | down
  deriving DecidableEq, Repr

structure MigrationFile where
  path : String
  fileName : String
  version : Nat
  name : String
  content : Option String
  direction : Direction
  deriving DecidableEq, Repr

inductive PipeValue where
  | fileVal (f : MigrationFile)
  | errVal (e : GoError)
  deriving DecidableEq, Repr

inductive PipeEvent where
  | send (v : PipeValue)
  | close
  deriving DecidableEq, Repr

def isErrVal : PipeValue → Bool
  | .errVal _ => true
  | .fileVal _ => false

/-- Whether an error value was sent on the pipe. -/
def hasErrorSend (events : List PipeEvent) : Bool :=
  events.any fun ev =>
    match ev with
    | .send v => isErrVal v
    | .close => false

def digitsToNat (l : List Char) : Nat :=
  l.foldl (fun n c => n * 10 + (c.toNat - 48)) 0

/-- An unsigned decimal numeral, or none. -/
def parseDigits (ds : List Char) : Option Nat :=
  if ds ≠ [] ∧ ds.all Char.isDigit then some (digitsToNat ds) else none

/-- Go strconv.Atoi restricted to the values the position translation needs:
an optionally signed decimal numeral parses, anything else is an error.
(The int64 overflow failure mode of Atoi is not reachable for the byte
offsets this code consumes and is not modelled.) -/
def goAtoi (s : String) : Option Int :=
  match s.data with
  | '-' :: ds => (parseDigits ds).map (fun n => -(n : Int))
  | '+' :: ds => (parseDigits ds).map (fun n => (n : Int))
  | ds => (parseDigits ds).map (fun n => (n : Int))

/-- Splitting on a separator character (Go strings.Split with a one-rune
separator, the shape both line-window rendering and the migrator need). -/
def splitOnChar (c : Char) : List Char → List (List Char)
  | [] => [[]]
  | x :: xs =>
    match splitOnChar c xs, decide (x = c) with
    | r, true => [] :: r
    | [], false => [[x]]
    | y :: ys, false => (x :: y) :: ys

/-- The lines of a text (split on the newline character). -/
def splitLines (content : String) : List String :=
  (splitOnChar '\x0a' content.data).map (fun l => ⟨l⟩)

def isSpaceChar (c : Char) : Bool :=
  c = ' ' || c = '\t' || c = '\x0a' || c = '\x0d'

/-- Go strings.TrimSpace (over the ASCII whitespace the migrator meets). -/
def goTrim (s : String) : String :=
  ⟨((s.data.dropWhile isSpaceChar).reverse.dropWhile isSpaceChar).reverse⟩

/-- Modelled from the spec: file.LineColumnFromOffset is code of this
repository that is not under src/ (only its caller in the postgres driver
is).  Per the spec it derives the 1-based line and column of a byte offset
into the source text. -/
def LineColumnFromOffset (content : String) (offset : Int) : Nat × Nat :=
  let pre := content.data.take offset.toNat
  (1 + pre.count '\n', 1 + (pre.reverse.takeWhile (fun c => c ≠ '\n')).length)

/-- Modelled from the spec: file.LinesBeforeAndAfter is code of this
repository that is not under src/.  Per the spec it returns a window of the
source lines around the 1-based line lineNo: `before` lines of context
before and `after` lines after (clipped at the text's bounds); the final
flag asks for line numbering in the real renderer and does not change which
lines the window holds. -/
def LinesBeforeAndAfter (content : String) (lineNo before after : Nat)
    (_numbered : Bool) : String :=
  stringsJoin "\x0a"
    (((splitLines content).drop (lineNo - 1 - before)).take (before + 1 + after))

/-- A structured pq.Error from the backend: severity, code, message and the
1-based byte position into the statement text (empty when absent). -/
structure PqError where
  severity : String
  code : String
  message : String
  position : String
  deriving DecidableEq, Repr

/-- The error values the postgres Migrate sends for a failed statement
execution (src/unnamed/part_000, 170-179): with a resolvable non-negative
offset, the positional message with the 5-line context window; otherwise
only severity, code and message. -/
def pqErrorPipeValue (pqe : PqError) (content : String) : PipeValue :=
  match goAtoi pqe.position with
  | some offset =>
    if offset ≥ 0 then
      let lc := LineColumnFromOffset content (offset - 1)
      let errorPart := LinesBeforeAndAfter content lc.1 5 5 true
      .errVal (.str (pqe.severity ++ " " ++ pqe.code ++ ": " ++ pqe.message ++
        " in line " ++ toString lc.1 ++ ", column " ++ toString lc.2 ++
        ":\n\n" ++ errorPart))
    else
      .errVal (.str (pqe.severity ++ " " ++ pqe.code ++ ": " ++ pqe.message))
  | none =>
    .errVal (.str (pqe.severity ++ " " ++ pqe.code ++ ": " ++ pqe.message))

/-! ## postgres Migrate (src/unnamed/part_000, 133-191)

Everything between Begin and Commit runs inside one native transaction:
its operations are buffered and applied to the world only by Commit;
Rollback (or never committing) leaves the world as it was. -/

inductive TxOp where
  | insertVersion (v : Nat)
  | deleteVersion (v : Nat)
  | execContent (s : String)
  deriving DecidableEq, Repr

def applyTxOp (w : DbWorld) : TxOp → DbWorld
  | .insertVersion v => { w with versions := w.versions ++ [v] }
  | .deleteVersion v => { w with versions := w.versions.filter (fun x => x ≠ v) }
  | .execContent s => { w with effects := w.effects ++ [s] }

def applyTx (w : DbWorld) (ops : List TxOp) : DbWorld :=
  ops.foldl applyTxOp w

structure PgMigrateOracle where
  ensureConnErr : Option GoError
  beginErr : Option GoError
  versionExecErr : Option GoError
  readContentErr : Option GoError
  loadedContent : String
  contentExecErr : Option PqError
  rollbackErr : Option GoError
  commitErr : Option GoError

/-- The sends tx.Rollback contributes: its own error, when it fails too. -/
def rollbackSends (o : PgMigrateOracle) : List PipeValue :=
  match o.rollbackErr with
  | some e => [.errVal e]
  | none => []

/-- Body of the postgres Migrate between the echoed file and the close:
the values sent and the committed world when the call returns. -/
def pgMigrateBody (o : PgMigrateOracle) (w : DbWorld) (f : MigrationFile) :
    List PipeValue × DbWorld :=
  match o.ensureConnErr with
  | some e =>
    ([.errVal (.str ("failed to ensure db connection is open: " ++ e.message))], w)
  | none =>
  match o.beginErr with
  | some e => ([.errVal e], w)
  | none =>
    match o.versionExecErr with
    | some e => ([.errVal e] ++ rollbackSends o, w)
    | none =>
      let txOps :=
        match f.direction with
        | .up => [TxOp.insertVersion f.version]
        | .down => [TxOp.deleteVersion f.version]
      match o.readContentErr with
      | some e => ([.errVal e], w)
      | none =>
        let content := f.content.getD o.loadedContent
        match o.contentExecErr with
        | some pqe => ([pqErrorPipeValue pqe content] ++ rollbackSends o, w)
        | none =>
          match o.commitErr with
          | some e => ([.errVal e], w)
          | none => ([], applyTx w (txOps ++ [TxOp.execContent content]))

/-- postgres Migrate: defer close(pipe); pipe <- f; then the body. -/
def pgMigrate (o : PgMigrateOracle) (w : DbWorld) (f : MigrationFile) :
    List PipeEvent × DbWorld :=
  let body := pgMigrateBody o w f
  (PipeEvent.send (.fileVal f) :: body.1.map PipeEvent.send ++ [PipeEvent.close], body.2)

/-! ## generic Migrate (generic.go 211-236) and the gomethods migrator

The generic backend has no transaction: the migrator's method invocations
commit their effects as they run, and the version-table mutation is a plain
Exec after the migrator has succeeded. -/

/-- Modelled from the spec: gomethods.Migrator.Migrate is code of this
repository that is not under src/ (only its callers and the per-name
Validate/Invoke are).  Per the spec (4.4) and the driver's tests it reads
the file content as one symbolic method name per line (whitespace trimmed,
blank lines skipped), validates every listed name first - the first
validation error is sent on the pipe and aborts before anything is invoked -
and then invokes the methods in file order, sending the first invocation
failure on the pipe and stopping there; the pipe is not closed here. -/
def parseMethodNames (content : String) : List String :=
  ((splitLines content).map goTrim).filter (fun s => s ≠ "")

def firstValidateErr (recv : MethodsReceiver) : List String → Option GoError
  | [] => none
  | n :: rest =>
    match Generic.Validate recv n with
    | some e => some e
    | none => firstValidateErr recv rest

def invokeLoop (recv : MethodsReceiver) :
    List String → DbWorld → List PipeValue × DbWorld × Option GoError
  | [], w => ([], w, none)
  | n :: rest, w =>
    match Generic.Invoke recv n w with
    | .error p => ([], w, some (.str p))
    | .ok (w2, some e) => ([.errVal e], w2, some e)
    | .ok (w2, none) => invokeLoop recv rest w2

def migratorMigrate (recv : MethodsReceiver) (readContentErr : Option GoError)
    (loadedContent : String) (w : DbWorld) (f : MigrationFile) :
    List PipeValue × DbWorld × Option GoError :=
  match readContentErr with
  | some e => ([.errVal e], w, some e)
  | none =>
    match firstValidateErr recv (parseMethodNames (f.content.getD loadedContent)) with
    | some e => ([.errVal e], w, some e)
    | none => invokeLoop recv (parseMethodNames (f.content.getD loadedContent)) w

structure GenMigrateOracle where
  readContentErr : Option GoError
  loadedContent : String
  ensureConnErr : Option GoError
  versionExecErr : Option GoError

/-- Body of the generic Migrate between the echoed file and the close.
Initialize guarantees a registered methods receiver before Migrate runs. -/
def genericMigrateBody (recv : MethodsReceiver) (o : GenMigrateOracle)
    (w : DbWorld) (f : MigrationFile) : List PipeValue × DbWorld :=
  match migratorMigrate recv o.readContentErr o.loadedContent w f with
  | (msgs, w2, some _) => (msgs, w2)
  | (msgs, w2, none) =>
    match o.ensureConnErr with
    | some e =>
      (msgs ++ [.errVal (.str ("failed to ensure db connection is open: " ++ e.message))], w2)
    | none =>
      match o.versionExecErr with
      | some e => (msgs ++ [.errVal e], w2)
      | none =>
        match f.direction with
        | .up => (msgs, { w2 with versions := w2.versions ++ [f.version] })
        | .down => (msgs, { w2 with versions := w2.versions.filter (fun x => x ≠ f.version) })

/-- generic Migrate: defer close(pipe); pipe <- f; then the body. -/
def genericMigrate (recv : MethodsReceiver) (o : GenMigrateOracle)
    (w : DbWorld) (f : MigrationFile) : List PipeEvent × DbWorld :=
  let body := genericMigrateBody recv o w f
  (PipeEvent.send (.fileVal f) :: body.1.map PipeEvent.send ++ [PipeEvent.close], body.2)

/-- The effects the callable registered under a name commits when run. -/
def methodEffect (recv : MethodsReceiver) (n : String) : List String :=
  match MethodByName recv n with
  | some m => m.effect
  | none => []

/-! ## Helper lemmas -/

theorem maxRowSpec (l : List Nat) (m : Nat) (h : l.max? = some m) :
    m ∈ l ∧ ∀ a ∈ l, a ≤ m := by
  rw [List.max?_eq_some_iff] at h
  · exact h
  · exact fun a => Nat.le_refl a
  · exact fun a b => max_choice a b
  · exact fun a b c => max_le_iff

theorem lookup_isSome_iff_mem_keys {β : Type} (rg : List (String × β)) (n : String) :
    (List.lookup n rg).isSome = true ↔ n ∈ rg.map Prod.fst := by
  induction rg with
  | nil => simp
  | cons p rest ih =>
    cases p with
    | mk k v =>
      simp [List.lookup]
      by_cases hk : n = k
      · subst hk; simp
      · have hbeq : (n == k) = false := by simpa using hk
        simp [hbeq, hk, ih]

theorem any_map_send (sends : List PipeValue) :
    ((sends.map PipeEvent.send).any fun ev =>
      match ev with
      | PipeEvent.send v => isErrVal v
      | PipeEvent.close => false) = sends.any isErrVal := by
  induction sends with
  | nil => rfl
  | cons v rest ih => simp only [List.map_cons, List.any_cons, ih]

theorem hasErrorSend_wrap (f : MigrationFile) (sends : List PipeValue) :
    hasErrorSend (PipeEvent.send (.fileVal f) :: sends.map PipeEvent.send ++ [PipeEvent.close]) =
      sends.any isErrVal := by
  simp only [hasErrorSend, List.any_cons, List.any_append, any_map_send]
  simp [isErrVal]

/-- x occurs as a contiguous substring of y (on the character lists). -/
def strContainsSub (x y : String) : Prop := x.data <:+: y.data

theorem strSub_refl (s : String) : strContainsSub s s := ⟨[], [], by simp⟩

theorem strSub_left (x y z : String) (h : strContainsSub x y) :
    strContainsSub x (z ++ y) := by
  obtain ⟨s, t, hst⟩ := h
  exact ⟨z.data ++ s, t, by rw [String.data_append]; simp [← hst]⟩

theorem strSub_right (x y z : String) (h : strContainsSub x y) :
    strContainsSub x (y ++ z) := by
  obtain ⟨s, t, hst⟩ := h
  exact ⟨s, t ++ z.data, by rw [String.data_append]; simp [← hst]⟩

/-! ## Claims -/

/-- Claim C4: for every (namespace, product-name) input pair, the advisory
lock id is the decimal string of the IEEE CRC-32 checksum of the UTF-8 bytes
of namespace + NUL + product-name, multiplied by the odd salt 1486364155
modulo 2^32, with no error; being a pure function of its inputs it is
identical across repeated calls. -/
theorem claim_C4 (ns productName : String) :
    GenerateAdvisoryLockId productName [ns] =
      (toString ((crc32IEEE (stringUtf8 (ns ++ "\x00" ++ productName)) * 1486364155) % 2 ^ 32),
       none) := by
  simp [GenerateAdvisoryLockId, stringsJoin, advisoryLockIDSalt]

/-- Claim C5: Lock() on an instance already holding the advisory lock
returns the AlreadyLocked sentinel (driver.ErrLocked) without issuing any
backend command and without changing the lock flag, and Unlock() on an
instance not holding it succeeds without issuing any backend command, for
the postgres and the generic driver alike, whatever the backend would do. -/
theorem claim_C5 (execErr : Option GoError) :
    Postgres.Lock execErr true = ([], true, some .errLocked)
    ∧ Postgres.Unlock execErr false = ([], false, none)
    ∧ Generic.Lock execErr true = ([], true, some .errLocked)
    ∧ Generic.Unlock execErr false = ([], false, none) :=
  ⟨rfl, rfl, rfl, rfl⟩

/-- Claim C2: for every Migrate call of the postgres and the generic driver,
the event trace on the pipe starts by sending the input file, closes the
pipe exactly once, as its last action before returning, and never closes it
anywhere else, on success and on every failure path alike. -/
theorem claim_C2 :
    (∀ o w f, ∃ body,
      (pgMigrate o w f).1 = PipeEvent.send (.fileVal f) :: body ++ [PipeEvent.close]
      ∧ PipeEvent.close ∉ body)
    ∧ (∀ recv o w f, ∃ body,
      (genericMigrate recv o w f).1 = PipeEvent.send (.fileVal f) :: body ++ [PipeEvent.close]
      ∧ PipeEvent.close ∉ body) := by
  constructor
  · intro o w f
    refine ⟨(pgMigrateBody o w f).1.map PipeEvent.send, rfl, ?_⟩
    simp
  · intro recv o w f
    refine ⟨(genericMigrateBody recv o w f).1.map PipeEvent.send, rfl, ?_⟩
    simp

/-- Claim C3: when the connection check and the backend query succeed,
Version() of the postgres and the generic driver returns the highest version
recorded in the version table with a nil error, returns 0 with a nil error
on a table holding no rows (sql.ErrNoRows), and surfaces a backend failure
as the returned error. -/
theorem claim_C3 (o : VersionOracle) (w : DbWorld) :
    (o.ensureConnErr = none → o.queryErr = none →
      ((∀ v ∈ w.versions, v ≤ (Postgres.Version o w).1)
        ∧ (w.versions ≠ [] → (Postgres.Version o w).1 ∈ w.versions)
        ∧ (Postgres.Version o w).2 = none
        ∧ (w.versions = [] → Postgres.Version o w = (0, none))
        ∧ (∀ v ∈ w.versions, v ≤ (Generic.Version o w).1)
        ∧ (w.versions ≠ [] → (Generic.Version o w).1 ∈ w.versions)
        ∧ (Generic.Version o w).2 = none
        ∧ (w.versions = [] → Generic.Version o w = (0, none))))
    ∧ (∀ e, o.ensureConnErr = none → o.queryErr = some e →
        Postgres.Version o w = (0, some e) ∧ Generic.Version o w = (0, some e)) := by
  rcases o with ⟨ce, qe⟩
  constructor
  · intro hc hq
    simp only at hc hq
    subst hc; subst hq
    simp only [Postgres.Version, Generic.Version, queryMaxVersionRow]
    cases hm : w.versions.max? with
    | none =>
      have hempty : w.versions = [] := by simpa using List.max?_eq_none_iff.mp hm
      simp [hempty]
    | some m =>
      obtain ⟨hmem, hle⟩ := maxRowSpec _ _ hm
      refine ⟨fun v hv => hle v hv, fun _ => hmem, rfl, ?_, fun v hv => hle v hv,
        fun _ => hmem, rfl, ?_⟩ <;>
        (intro hempty; rw [hempty] at hm; cases hm)
  · intro e hc hq
    simp only at hc hq
    subst hc; subst hq
    exact ⟨rfl, rfl⟩

/-- Evaluation vehicles for the witnesses below: a small registry. -/
def pgImplEx : DriverImpl := { filenameExtension := "sql", initResult := none }

def pgGenEx : DriverGenerator := NewDriverGenerator fun _ => pgImplEx

def badImplEx : DriverImpl := { filenameExtension := "", initResult := none }

def badGenEx : DriverGenerator := NewDriverGenerator fun _ => badImplEx

def registryEx : Registry := [("postgres", pgGenEx)]

def registryBadEx : Registry := [("bad", badGenEx)]

/-- Witness for C3: a populated table, an empty table and a failing backend,
evaluated concretely. -/
theorem claim_C3_wit :
    (Postgres.Version ⟨none, none⟩ ⟨[2, 5, 3], []⟩).1 ∈ [2, 5, 3]
    ∧ Postgres.Version ⟨none, none⟩ ⟨[], []⟩ = (0, none)
    ∧ Generic.Version ⟨none, none⟩ ⟨[], []⟩ = (0, none)
    ∧ Postgres.Version ⟨none, some (.str "backend down")⟩ ⟨[7], []⟩ =
        (0, some (.str "backend down")) :=
  ⟨((claim_C3 ⟨none, none⟩ ⟨[2, 5, 3], []⟩).1 rfl rfl).2.1 (by decide),
   ((claim_C3 ⟨none, none⟩ ⟨[], []⟩).1 rfl rfl).2.2.2.1 rfl,
   ((claim_C3 ⟨none, none⟩ ⟨[], []⟩).1 rfl rfl).2.2.2.2.2.2.2 rfl,
   ((claim_C3 ⟨none, some (.str "backend down")⟩ ⟨[7], []⟩).2 _ rfl rfl).1⟩

/-- Claim C6: registering a driver under an already-registered scheme name
panics (as does the nil-generator misuse checked first), while looking up an
unregistered scheme, directly or through New, returns an ordinary not-found
error value and cannot panic. -/
theorem claim_C6 :
    (∀ (rg : Registry) (name : String) (g : DriverGenerator),
      (GetDriverGenerator rg name).isSome = true →
        ∃ msg, RegisterDriver rg name g = .error msg)
    ∧ (∀ (rg : Registry) (name : String),
      GetDriverGenerator rg name = none →
        New rg (.ok ⟨name⟩) = .ok (.error (.str ("Driver \x27" ++ name ++ "\x27 not found.")))) := by
  constructor
  · intro rg name g h
    obtain ⟨v, hv⟩ := Option.isSome_iff_exists.mp h
    by_cases hg : g.fnGenerator.isNone = true
    · exact ⟨"driver: Register driver is nil", by simp [RegisterDriver, hg]⟩
    · refine ⟨"sql: Register called twice for driver " ++ name, ?_⟩
      unfold RegisterDriver
      simp only [hg, if_false]
      rw [show List.lookup name rg = some v from hv]
      simp
  · intro rg name h
    unfold New
    simp only [h]

/-- Witness for C6: duplicate registration of the example scheme panics;
resolving an unknown scheme produces the not-found error. -/
theorem claim_C6_wit :
    (∃ msg, RegisterDriver registryEx "postgres" pgGenEx = .error msg)
    ∧ New registryEx (.ok ⟨"mysql"⟩) =
        .ok (.error (.str "Driver \x27mysql\x27 not found.")) :=
  ⟨claim_C6.1 registryEx "postgres" pgGenEx rfl,
   claim_C6.2 registryEx "mysql" rfl⟩

theorem exceptOkBind {e a b : Type} (x : a) (f : a → Except e b) :
    (Except.ok x >>= f) = f x := rfl

theorem exceptErrBind {e a b : Type} (err : e) (f : a → Except e b) :
    ((Except.error err : Except e a) >>= f) = .error err := rfl

/-- Claim C9: New panics at construction time - right after generating the
driver and before its Initialize could run a migration - whenever the
driver's FilenameExtension() is empty or starts with a dot, and a driver
whose extension is non-empty and dot-less passes the check (New returns
normally, with Initialize's outcome). -/
theorem claim_C9 (rg : Registry) (u : ParsedURL) (gen : DriverGenerator) (d : DriverImpl)
    (hget : GetDriverGenerator rg u.scheme = some gen)
    (hgen : gen.Generate = .ok d) :
    ((d.filenameExtension = "" ∨ d.filenameExtension.take 1 = ".") →
      ∃ msg, New rg (.ok u) = .error msg)
    ∧ (d.filenameExtension ≠ "" → d.filenameExtension.take 1 ≠ "." →
      ∃ r, New rg (.ok u) = .ok r) := by
  constructor
  · intro hbad
    unfold New
    simp only [hget, hgen]
    rcases hbad with hempty | hdot
    · exact ⟨u.scheme ++ ".FilenameExtension() returns empty string.",
        by simp [verifyFilenameExtension, hempty, exceptOkBind, exceptErrBind]⟩
    · by_cases hempty : d.filenameExtension = ""
      · exact ⟨u.scheme ++ ".FilenameExtension() returns empty string.",
          by simp [verifyFilenameExtension, hempty, exceptOkBind, exceptErrBind]⟩
      · exact ⟨u.scheme ++ ".FilenameExtension() returned string must not start with a dot.",
          by simp [verifyFilenameExtension, hempty, hdot, exceptOkBind, exceptErrBind]⟩
  · intro h1 h2
    unfold New
    simp only [hget, hgen]
    refine ⟨match d.initResult with
      | some e => .error e
      | none => .ok d, ?_⟩
    simp only [verifyFilenameExtension, h1, h2, exceptOkBind, if_neg, if_false]
    cases d.initResult <;> rfl

/-- Witness for C9: the empty-extension driver makes New panic; the sql
extension passes and New returns. -/
theorem claim_C9_wit :
    (∃ msg, New registryBadEx (.ok ⟨"bad"⟩) = .error msg)
    ∧ (∃ r, New registryEx (.ok ⟨"postgres"⟩) = .ok r) :=
  ⟨(claim_C9 registryBadEx ⟨"bad"⟩ badGenEx badImplEx rfl rfl).1 (Or.inl rfl),
   (claim_C9 registryEx ⟨"postgres"⟩ pgGenEx pgImplEx rfl rfl).2 (by decide) (by decide)⟩

/-- Claim C10: Drivers() lists exactly the registered scheme names, without
duplicates, in ascending lexicographic order, and two registries holding
the same names in any registration order produce the same list. -/
theorem claim_C10 (rg rg2 : Registry) (hnd : (rg.map Prod.fst).Nodup) :
    (Drivers rg).Sorted (· ≤ ·)
    ∧ (Drivers rg).Nodup
    ∧ (∀ n, n ∈ Drivers rg ↔ (GetDriverGenerator rg n).isSome = true)
    ∧ ((rg.map Prod.fst).Perm (rg2.map Prod.fst) → Drivers rg = Drivers rg2) := by
  refine ⟨List.sorted_mergeSort' _, ((List.mergeSort_perm _ _).nodup_iff).mpr hnd, ?_, ?_⟩
  · intro n
    unfold Drivers GetDriverGenerator
    rw [(List.mergeSort_perm (rg.map Prod.fst) _).mem_iff, lookup_isSome_iff_mem_keys]
  · intro hp
    exact List.eq_of_perm_of_sorted
      ((List.mergeSort_perm _ _).trans (hp.trans (List.mergeSort_perm _ _).symm))
      (List.sorted_mergeSort' _) (List.sorted_mergeSort' _)

/-- Witness for C10: two registries with the same three schemes registered
in different orders, evaluated concretely. -/
theorem claim_C10_wit :
    ([("b", pgGenEx), ("a", pgGenEx), ("c", pgGenEx)].map Prod.fst).Nodup
    ∧ Drivers [("b", pgGenEx), ("a", pgGenEx), ("c", pgGenEx)] =
        Drivers [("c", pgGenEx), ("b", pgGenEx), ("a", pgGenEx)] :=
  ⟨by decide,
   (claim_C10 [("b", pgGenEx), ("a", pgGenEx), ("c", pgGenEx)]
      [("c", pgGenEx), ("b", pgGenEx), ("a", pgGenEx)] (by decide)).2.2.2 (by decide)⟩

theorem methodByName_pkgPath {recv : MethodsReceiver} {n : String} {m : ReflectMethod}
    (h : MethodByName recv n = some m) : m.pkgPath = "" := by
  unfold MethodByName at h
  cases hl : List.lookup n recv with
  | none => rw [hl] at h; cases h
  | some m2 =>
    rw [hl] at h
    by_cases hp : m2.pkgPath = ""
    · simp only [Option.filter, hp, decide_True, if_true] at h
      cases h
      exact hp
    · simp [Option.filter, hp] at h

/-- Claim C7: in the named-method invocation extension, a name that does not
resolve to an exported registered method yields the MissingMethod error
(from Validate and from Invoke alike); a resolved name whose callable is not
of the zero-argument error-returning shape yields the WrongSignature error;
a callable of the right shape that runs and returns a non-nil error yields
the InvocationFailed error wrapping that error together with the method
name; and Initialize on a driver with no registered methods receiver fails
with the UnregisteredReceiver error before doing anything else. -/
theorem claim_C7 :
    (∀ recv name, MethodByName recv name = none →
      Generic.Validate recv name = some (.missingMethod name)
      ∧ ∀ w, Generic.Invoke recv name w = .ok (w, some (.missingMethod name)))
    ∧ (∀ recv name m, MethodByName recv name = some m → isFuncErrorType m = false →
      Generic.Validate recv name = some (.wrongMethodSignature name))
    ∧ (∀ recv name m w e, MethodByName recv name = some m → isFuncErrorType m = true →
      m.callResult = some e →
      Generic.Invoke recv name w =
        .ok ({ w with effects := w.effects ++ m.effect },
             some (.methodInvocationFailed name e)))
    ∧ (∀ urlRaw url o isLocked,
      (Generic.InitializeDriver none urlRaw url o isLocked).2 =
        some (.unregisteredMethodsReceiver "generic")) := by
  refine ⟨?_, ?_, ?_, ?_⟩
  · intro recv name h
    constructor
    · unfold Generic.Validate
      rw [h]
    · intro w
      unfold Generic.Invoke
      rw [h]
  · intro recv name m hm hsig
    have hpk := methodByName_pkgPath hm
    unfold Generic.Validate
    rw [hm]
    simp [hpk, hsig]
  · intro recv name m w e hm hsig hres
    unfold Generic.Invoke
    rw [hm]
    simp only [isFuncErrorType, Bool.and_eq_true, decide_eq_true_eq] at hsig
    obtain ⟨⟨h0, h1⟩, h2⟩ := hsig
    simp [h0, h1, h2, hres]
  · intro urlRaw url o isLocked
    rfl

def goodMethodEx : ReflectMethod :=
  { pkgPath := "", numIn := 0, numOut := 1, outIsError := true,
    callResult := some (.str "boom"), effect := ["g1"] }

def badSigMethodEx : ReflectMethod :=
  { pkgPath := "", numIn := 1, numOut := 1, outIsError := true,
    callResult := none, effect := [] }

def recvEx : MethodsReceiver := [("Good", goodMethodEx), ("BadSig", badSigMethodEx)]

/-- Witness for C7: a missing name, a wrong-signature name, a failing
callable and an unregistered receiver, evaluated concretely. -/
theorem claim_C7_wit :
    Generic.Validate recvEx "Nope" = some (.missingMethod "Nope")
    ∧ Generic.Validate recvEx "BadSig" = some (.wrongMethodSignature "BadSig")
    ∧ Generic.Invoke recvEx "Good" ⟨[], []⟩ =
        .ok (⟨[], ["g1"]⟩, some (.methodInvocationFailed "Good" (.str "boom")))
    ∧ (Generic.InitializeDriver none "url" (.parsed [])
        ⟨none, none, ⟨none, none, none⟩⟩ false).2 =
        some (.unregisteredMethodsReceiver "generic") :=
  ⟨(claim_C7.1 recvEx "Nope" rfl).1,
   claim_C7.2.1 recvEx "BadSig" badSigMethodEx rfl rfl,
   claim_C7.2.2.1 recvEx "Good" goodMethodEx ⟨[], []⟩ (.str "boom") rfl rfl rfl,
   claim_C7.2.2.2 "url" (.parsed []) ⟨none, none, ⟨none, none, none⟩⟩ false⟩

/-- The effects committed by running the listed methods in order. -/
def effectsOf (recv : MethodsReceiver) (ns : List String) : List String :=
  ns.foldr (fun n acc => methodEffect recv n ++ acc) []

theorem invoke_ok_world {recv : MethodsReceiver} {n : String} {w w2 : DbWorld}
    {r : Option GoError} (h : Generic.Invoke recv n w = .ok (w2, r)) :
    w2.versions = w.versions
    ∧ (w2.effects = w.effects ∨ w2.effects = w.effects ++ methodEffect recv n)
    ∧ (r = none → w2.effects = w.effects ++ methodEffect recv n) := by
  unfold Generic.Invoke at h
  cases hm : MethodByName recv n with
  | none =>
    rw [hm] at h
    simp only [Except.ok.injEq, Prod.mk.injEq] at h
    obtain ⟨hw, hr⟩ := h
    subst hw
    refine ⟨rfl, Or.inl rfl, fun hrn => ?_⟩
    rw [hrn] at hr
    cases hr
  | some m =>
    rw [hm] at h
    have hme : methodEffect recv n = m.effect := by
      unfold methodEffect
      rw [hm]
    by_cases h0 : m.numIn = 0
    · simp only [h0, ne_eq, not_true_eq_false, if_false] at h
      by_cases h1 : m.numOut = 1
      · simp only [h1, ne_eq, not_true_eq_false, if_false] at h
        cases hres : m.callResult with
        | none =>
          rw [hres] at h
          simp only [Except.ok.injEq, Prod.mk.injEq] at h
          obtain ⟨hw, hr⟩ := h
          subst hw
          exact ⟨rfl, Or.inr (by rw [hme]), fun _ => by rw [hme]⟩
        | some e =>
          rw [hres] at h
          by_cases ho : m.outIsError = true
          · simp only [ho, if_true] at h
            simp only [Except.ok.injEq, Prod.mk.injEq] at h
            obtain ⟨hw, hr⟩ := h
            subst hw
            refine ⟨rfl, Or.inr (by rw [hme]), fun hrn => by rw [hme]⟩
          · simp only [Bool.not_eq_true] at ho
            simp only [ho, Bool.false_eq_true, if_false] at h
            simp only [Except.ok.injEq, Prod.mk.injEq] at h
            obtain ⟨hw, hr⟩ := h
            subst hw
            refine ⟨rfl, Or.inr (by rw [hme]), fun hrn => by rw [hme]⟩
      · simp only [ne_eq, h1, not_false_eq_true, if_true] at h
        simp only [Except.ok.injEq, Prod.mk.injEq] at h
        obtain ⟨hw, hr⟩ := h
        subst hw
        refine ⟨rfl, Or.inr (by rw [hme]), fun hrn => ?_⟩
        rw [hrn] at hr
        cases hr
    · simp only [ne_eq, h0, not_false_eq_true, if_true] at h
      cases h

theorem effectsOf_cons (recv : MethodsReceiver) (n : String) (l : List String) :
    effectsOf recv (n :: l) = methodEffect recv n ++ effectsOf recv l := rfl

theorem invokeLoop_world (recv : MethodsReceiver) :
    ∀ (names : List String) (w : DbWorld),
      (invokeLoop recv names w).2.1.versions = w.versions
      ∧ ∃ k, (invokeLoop recv names w).2.1.effects =
          w.effects ++ effectsOf recv (names.take k) := by
  intro names
  induction names with
  | nil =>
    intro w
    exact ⟨rfl, 0, by simp [invokeLoop, effectsOf]⟩
  | cons n rest ih =>
    intro w
    simp only [invokeLoop]
    cases hinv : Generic.Invoke recv n w with
    | error p =>
      exact ⟨rfl, 0, by simp [effectsOf]⟩
    | ok pr =>
      rcases pr with ⟨w2, r⟩
      obtain ⟨hv, hef, hnone⟩ := invoke_ok_world hinv
      cases r with
      | some e =>
        refine ⟨hv, ?_⟩
        rcases hef with hl | hr
        · exact ⟨0, by simpa [effectsOf] using hl⟩
        · exact ⟨1, by simpa [effectsOf_cons, effectsOf] using hr⟩
      | none =>
        obtain ⟨hv2, k, hef2⟩ := ih w2
        refine ⟨hv2.trans hv, k + 1, ?_⟩
        rw [hef2, hnone rfl, List.take_succ_cons, effectsOf_cons, List.append_assoc]

theorem invokeLoop_no_err_sends (recv : MethodsReceiver) :
    ∀ (names : List String) (w : DbWorld),
      (invokeLoop recv names w).2.2 = none → (invokeLoop recv names w).1 = [] := by
  intro names
  induction names with
  | nil => intro w _; rfl
  | cons n rest ih =>
    intro w
    simp only [invokeLoop]
    cases hinv : Generic.Invoke recv n w with
    | error p => intro h; cases h
    | ok pr =>
      rcases pr with ⟨w2, r⟩
      cases r with
      | some e => intro h; cases h
      | none => exact ih w2

theorem migrator_world (recv : MethodsReceiver) (rce : Option GoError)
    (lc : String) (w : DbWorld) (f : MigrationFile) :
    (migratorMigrate recv rce lc w f).2.1.versions = w.versions
    ∧ ∃ k, (migratorMigrate recv rce lc w f).2.1.effects =
        w.effects ++ effectsOf recv ((parseMethodNames (f.content.getD lc)).take k) := by
  unfold migratorMigrate
  cases rce with
  | some e => exact ⟨rfl, 0, by simp [effectsOf]⟩
  | none =>
    cases hval : firstValidateErr recv (parseMethodNames (f.content.getD lc)) with
    | some e => exact ⟨rfl, 0, by simp [effectsOf]⟩
    | none => exact invokeLoop_world recv _ w

theorem migrator_no_err_sends (recv : MethodsReceiver) (rce : Option GoError)
    (lc : String) (w : DbWorld) (f : MigrationFile)
    (h : (migratorMigrate recv rce lc w f).2.2 = none) :
    (migratorMigrate recv rce lc w f).1 = [] := by
  unfold migratorMigrate at h ⊢
  cases rce with
  | some e => cases h
  | none =>
    revert h
    cases hval : firstValidateErr recv (parseMethodNames (f.content.getD lc)) with
    | some e => intro h; cases h
    | none => intro h; exact invokeLoop_no_err_sends recv _ w h

/-- Claim C1: whenever a Migrate call sends any error value on the pipe, no
commit of that file's migration happened.  For the postgres driver the whole
call runs in one native transaction, so the committed world is exactly what
it was before the call.  For the generic driver the version table is
untouched and the only committed effects beyond the initial world are those
of the methods the migrator had already run (an initial segment of the
file's method list) before the failure. -/
theorem claim_C1 :
    (∀ o w f, hasErrorSend (pgMigrate o w f).1 = true → (pgMigrate o w f).2 = w)
    ∧ (∀ recv o w f, hasErrorSend (genericMigrate recv o w f).1 = true →
        (genericMigrate recv o w f).2.versions = w.versions
        ∧ ∃ k, (genericMigrate recv o w f).2.effects =
            w.effects ++ effectsOf recv
              ((parseMethodNames (f.content.getD o.loadedContent)).take k)) := by
  constructor
  · intro o w f h
    have h2 : (pgMigrateBody o w f).1.any isErrVal = true := by
      rw [← hasErrorSend_wrap f (pgMigrateBody o w f).1]
      exact h
    show (pgMigrateBody o w f).2 = w
    rcases o with ⟨ce, be, ve, rce, lc, cee, re, cme⟩
    rcases ce with _ | e1 <;> rcases be with _ | e2 <;> rcases ve with _ | e3 <;>
      rcases rce with _ | e4 <;> rcases cee with _ | pqe <;> rcases cme with _ | e5 <;>
      first
        | rfl
        | simp [pgMigrateBody] at h2
  · intro recv o w f h
    rcases o with ⟨rce, lc, ce, ve⟩
    have h2 : (genericMigrateBody recv ⟨rce, lc, ce, ve⟩ w f).1.any isErrVal = true := by
      rw [← hasErrorSend_wrap f (genericMigrateBody recv ⟨rce, lc, ce, ve⟩ w f).1]
      exact h
    have hm := migrator_world recv rce lc w f
    have hs := migrator_no_err_sends recv rce lc w f
    suffices hsuff :
        (genericMigrateBody recv ⟨rce, lc, ce, ve⟩ w f).2.versions = w.versions
        ∧ ∃ k, (genericMigrateBody recv ⟨rce, lc, ce, ve⟩ w f).2.effects =
            w.effects ++ effectsOf recv ((parseMethodNames (f.content.getD lc)).take k) by
      exact hsuff
    unfold genericMigrateBody at h2 ⊢
    revert h2 hm hs
    rcases hmm : migratorMigrate recv rce lc w f with ⟨msgs, w2, _ | e⟩
    · intro h2 hm hs
      dsimp only at h2 hm hs ⊢
      obtain ⟨hv, k, he⟩ := hm
      have hmsgs : msgs = [] := hs rfl
      subst hmsgs
      rcases ce with _ | e1
      · rcases ve with _ | e2
        · rcases f with ⟨fp, fn, fv, fnm, fc, fdir⟩
          rcases fdir <;> simp at h2
        · exact ⟨hv, k, he⟩
      · exact ⟨hv, k, he⟩
    · intro h2 hm hs
      dsimp only at hm ⊢
      obtain ⟨hv, k, he⟩ := hm
      exact ⟨hv, k, he⟩

def pgOracleWitEx : PgMigrateOracle :=
  { ensureConnErr := none, beginErr := some (.str "begin failed"),
    versionExecErr := none, readContentErr := none, loadedContent := "",
    contentExecErr := none, rollbackErr := none, commitErr := none }

def fileWitEx : MigrationFile :=
  { path := "/m", fileName := "001_x.up.sql", version := 1, name := "x",
    content := some "CREATE TABLE t;", direction := .up }

def worldWitEx : DbWorld := { versions := [7], effects := ["prior"] }

def genOracleWitEx : GenMigrateOracle :=
  { readContentErr := none, loadedContent := "Nope",
    ensureConnErr := none, versionExecErr := none }

def genFileWitEx : MigrationFile :=
  { path := "/m", fileName := "001_x.up.gom", version := 1, name := "x",
    content := none, direction := .up }

/-- Witness for C1: a failed transaction Begin leaves the postgres world
untouched; a missing method aborts the generic migration with the version
table untouched. -/
theorem claim_C1_wit :
    hasErrorSend (pgMigrate pgOracleWitEx worldWitEx fileWitEx).1 = true
    ∧ (pgMigrate pgOracleWitEx worldWitEx fileWitEx).2 = worldWitEx
    ∧ hasErrorSend (genericMigrate recvEx genOracleWitEx worldWitEx genFileWitEx).1 = true
    ∧ (genericMigrate recvEx genOracleWitEx worldWitEx genFileWitEx).2.versions =
        worldWitEx.versions
    ∧ ∃ k, (genericMigrate recvEx genOracleWitEx worldWitEx genFileWitEx).2.effects =
        worldWitEx.effects ++ effectsOf recvEx
          ((parseMethodNames (genFileWitEx.content.getD genOracleWitEx.loadedContent)).take k) :=
  ⟨by decide,
   claim_C1.1 pgOracleWitEx worldWitEx fileWitEx (by decide),
   by decide,
   (claim_C1.2 recvEx genOracleWitEx worldWitEx genFileWitEx (by decide)).1,
   (claim_C1.2 recvEx genOracleWitEx worldWitEx genFileWitEx (by decide)).2⟩

/-- Claim C8: when executing the migration content fails with a structured
backend error, a resolvable non-negative byte offset yields a pipe message
containing the severity, the code, the message, the 1-based line and column
derived from that offset and the 5-lines-before-and-after source window,
while an unresolvable offset yields a message holding only severity, code
and message. -/
theorem claim_C8 (o : PgMigrateOracle) (w : DbWorld) (f : MigrationFile) (pqe : PqError)
    (hce : o.ensureConnErr = none) (hbe : o.beginErr = none)
    (hve : o.versionExecErr = none) (hrc : o.readContentErr = none)
    (hpq : o.contentExecErr = some pqe) :
    (∀ offset : Int, goAtoi pqe.position = some offset → offset ≥ 0 →
      ∃ m : String,
        PipeEvent.send (.errVal (.str m)) ∈ (pgMigrate o w f).1
        ∧ strContainsSub pqe.severity m
        ∧ strContainsSub pqe.code m
        ∧ strContainsSub pqe.message m
        ∧ strContainsSub
            (toString (LineColumnFromOffset (f.content.getD o.loadedContent) (offset - 1)).1) m
        ∧ strContainsSub
            (toString (LineColumnFromOffset (f.content.getD o.loadedContent) (offset - 1)).2) m
        ∧ strContainsSub
            (LinesBeforeAndAfter (f.content.getD o.loadedContent)
              (LineColumnFromOffset (f.content.getD o.loadedContent) (offset - 1)).1 5 5 true) m)
    ∧ ((goAtoi pqe.position = none
        ∨ ∀ offset : Int, goAtoi pqe.position = some offset → ¬ offset ≥ 0) →
      PipeEvent.send (.errVal (.str (pqe.severity ++ " " ++ pqe.code ++ ": " ++ pqe.message)))
        ∈ (pgMigrate o w f).1) := by
  rcases o with ⟨ce, be, ve, rce, lc, cee, re, cme⟩
  simp only at hce hbe hve hrc hpq
  subst hce; subst hbe; subst hve; subst hrc; subst hpq
  have hlist : (pgMigrate ⟨none, none, none, none, lc, some pqe, re, cme⟩ w f).1 =
      PipeEvent.send (.fileVal f) ::
        ([pqErrorPipeValue pqe (f.content.getD lc)] ++
          rollbackSends ⟨none, none, none, none, lc, some pqe, re, cme⟩).map PipeEvent.send ++
        [PipeEvent.close] := rfl
  constructor
  · intro offset hoff hge
    have hval : pqErrorPipeValue pqe (f.content.getD lc) =
        .errVal (.str (pqe.severity ++ " " ++ pqe.code ++ ": " ++ pqe.message ++
          " in line " ++
          toString (LineColumnFromOffset (f.content.getD lc) (offset - 1)).1 ++
          ", column " ++
          toString (LineColumnFromOffset (f.content.getD lc) (offset - 1)).2 ++
          ":\n\n" ++
          LinesBeforeAndAfter (f.content.getD lc)
            (LineColumnFromOffset (f.content.getD lc) (offset - 1)).1 5 5 true)) := by
      unfold pqErrorPipeValue
      rw [hoff]
      dsimp only
      rw [if_pos hge]
    refine ⟨pqe.severity ++ " " ++ pqe.code ++ ": " ++ pqe.message ++ " in line " ++
        toString (LineColumnFromOffset (f.content.getD lc) (offset - 1)).1 ++ ", column " ++
        toString (LineColumnFromOffset (f.content.getD lc) (offset - 1)).2 ++ ":\n\n" ++
        LinesBeforeAndAfter (f.content.getD lc)
          (LineColumnFromOffset (f.content.getD lc) (offset - 1)).1 5 5 true,
      ?_, ?_, ?_, ?_, ?_, ?_, ?_⟩
    · rw [hlist, hval]
      simp
    · exact strSub_right _ _ _ (strSub_right _ _ _ (strSub_right _ _ _ (strSub_right _ _ _
        (strSub_right _ _ _ (strSub_right _ _ _ (strSub_right _ _ _ (strSub_right _ _ _
        (strSub_right _ _ _ (strSub_right _ _ _ (strSub_refl _))))))))))
    · exact strSub_right _ _ _ (strSub_right _ _ _ (strSub_right _ _ _ (strSub_right _ _ _
        (strSub_right _ _ _ (strSub_right _ _ _ (strSub_right _ _ _ (strSub_right _ _ _
        (strSub_left _ _ _ (strSub_refl _)))))))))
    · exact strSub_right _ _ _ (strSub_right _ _ _ (strSub_right _ _ _ (strSub_right _ _ _
        (strSub_right _ _ _ (strSub_right _ _ _ (strSub_left _ _ _ (strSub_refl _)))))))
    · exact strSub_right _ _ _ (strSub_right _ _ _ (strSub_right _ _ _ (strSub_right _ _ _
        (strSub_left _ _ _ (strSub_refl _)))))
    · exact strSub_right _ _ _ (strSub_right _ _ _ (strSub_left _ _ _ (strSub_refl _)))
    · exact strSub_left _ _ _ (strSub_refl _)
  · intro hun
    have hval : pqErrorPipeValue pqe (f.content.getD lc) =
        .errVal (.str (pqe.severity ++ " " ++ pqe.code ++ ": " ++ pqe.message)) := by
      unfold pqErrorPipeValue
      rcases hun with hnone | hall
      · rw [hnone]
      · cases hoff : goAtoi pqe.position with
        | none => rfl
        | some offset =>
          dsimp only
          rw [if_neg (hall offset hoff)]
    rw [hlist, hval]
    simp

def pqeWitEx : PqError :=
  { severity := "ERROR", code := "42703",
    message := "column x does not exist", position := "15" }

def pqeNoPosWitEx : PqError :=
  { severity := "FATAL", code := "57P01",
    message := "terminating connection", position := "" }

def pgOracle8Ex : PgMigrateOracle :=
  { ensureConnErr := none, beginErr := none, versionExecErr := none,
    readContentErr := none, loadedContent := "",
    contentExecErr := some pqeWitEx, rollbackErr := none, commitErr := none }

def pgOracle8bEx : PgMigrateOracle :=
  { ensureConnErr := none, beginErr := none, versionExecErr := none,
    readContentErr := none, loadedContent := "",
    contentExecErr := some pqeNoPosWitEx, rollbackErr := none, commitErr := none }

def file8Ex : MigrationFile :=
  { path := "/m", fileName := "002_y.up.sql", version := 2, name := "y",
    content := some "SELECT 1;\nSELECT x;\nSELECT 3;", direction := .up }

/-- Witness for C8: a statement failure at byte position 15 of a three-line
script, and one with no position at all, evaluated concretely. -/
theorem claim_C8_wit :
    (∃ m : String,
      PipeEvent.send (.errVal (.str m)) ∈ (pgMigrate pgOracle8Ex worldWitEx file8Ex).1
      ∧ strContainsSub pqeWitEx.severity m
      ∧ strContainsSub pqeWitEx.code m
      ∧ strContainsSub pqeWitEx.message m
      ∧ strContainsSub
          (toString (LineColumnFromOffset (file8Ex.content.getD pgOracle8Ex.loadedContent)
            ((15 : Int) - 1)).1) m
      ∧ strContainsSub
          (toString (LineColumnFromOffset (file8Ex.content.getD pgOracle8Ex.loadedContent)
            ((15 : Int) - 1)).2) m
      ∧ strContainsSub
          (LinesBeforeAndAfter (file8Ex.content.getD pgOracle8Ex.loadedContent)
            (LineColumnFromOffset (file8Ex.content.getD pgOracle8Ex.loadedContent)
              ((15 : Int) - 1)).1 5 5 true) m)
    ∧ PipeEvent.send (.errVal (.str (pqeNoPosWitEx.severity ++ " " ++ pqeNoPosWitEx.code ++
        ": " ++ pqeNoPosWitEx.message))) ∈ (pgMigrate pgOracle8bEx worldWitEx file8Ex).1 :=
  ⟨(claim_C8 pgOracle8Ex worldWitEx file8Ex pqeWitEx rfl rfl rfl rfl rfl).1 15 rfl
      (by decide),
   (claim_C8 pgOracle8bEx worldWitEx file8Ex pqeNoPosWitEx rfl rfl rfl rfl rfl).2
      (Or.inl rfl)⟩
